import Mathlib

/-!
A verification development for the `PolarsView` query-builder class of
`src/lib/polars_view.py` (the deferred-expression query builder of the GDELT
dashboard).  The class accumulates filter predicates, at most one dynamic
time-bucketing rule and a list of aggregation expressions against a fixed
polars `DataFrame`, and resolves them in one pass in `resolve_view`.

The embedding models a polars `DataFrame` as a list of column names together
with a list of rows of cell values.  Cell values are dates, integers, floats
(modelled as rationals), strings, nulls, and — only in result frames produced
by `implode` aggregation — sequences of such scalars.  The relevant polars
operations (`filter`, `group_by_dynamic(...).agg(...)`, `get_column`,
`Series.min/max/sum`, the aggregation functions `pl.sum/min/max/count/median`
and `implode`) are modelled by executable Lean functions, following polars'
documented calendar-bucket semantics for `group_by_dynamic` with `every`
in `{1y, 1m, 1d}`, including its requirement that the index column be a
temporal dtype sorted ascending (violations raise
`InvalidOperationError`).

Python-level details that matter are kept: `ValueError` messages are modelled
verbatim, `get_column` on a missing column raises polars'
`ColumnNotFoundError` (a different exception from the builder's own
validation `ValueError`), and the truthiness test
`if self._group_by_column and self._group_by_step:` in `resolve_view` treats
the empty string as falsy.
-/

/-- Scalar cell values of the modelled data frame: null, 64-bit-style integer
(modelled as `Int`), float (modelled as `ℚ`), string, and calendar date given
as year, month, day. -/
inductive PBase where
  | bNull : PBase
  | bInt : Int → PBase
  | bFloat : ℚ → PBase
  | bStr : String → PBase
  | bDate : Int → Int → Int → PBase
deriving DecidableEq

/-- Order-embedding of scalar values into a lexicographic tuple: constructor
rank first, then the payload.  Distinct constructors never mix inside one
polars column, so only the within-constructor order is semantically
meaningful (integers and floats by value, strings lexicographically, dates by
year, month, day). -/
def PBase.toTup : PBase → ℕ ×ₗ (ℚ ×ₗ (ℤ ×ₗ (ℤ ×ₗ (ℤ ×ₗ List Char))))
  | .bNull => toLex (0, toLex (0, toLex (0, toLex (0, toLex (0, [])))))
  | .bInt i => toLex (1, toLex ((i : ℚ), toLex (0, toLex (0, toLex (0, [])))))
  | .bFloat q => toLex (2, toLex (q, toLex (0, toLex (0, toLex (0, [])))))
  | .bStr s => toLex (3, toLex (0, toLex (0, toLex (0, toLex (0, s.data)))))
  | .bDate y m d => toLex (4, toLex (0, toLex (y, toLex (m, toLex (d, [])))))

theorem PBase.toTup_injective : Function.Injective PBase.toTup := by
  intro a b h
  cases a <;> cases b <;>
    simp only [PBase.toTup, toLex_inj, Prod.mk.injEq, Int.cast_inj] at h <;>
    simp_all
  exact String.ext h

instance : LinearOrder PBase := LinearOrder.lift' PBase.toTup PBase.toTup_injective

/-- Cell values of the modelled data frame: a scalar, or (in frames produced
by an `implode` aggregation) a sequence of scalars. -/
inductive PValue where
  | scalar : PBase → PValue
  | seq : List PBase → PValue
deriving DecidableEq

/-- Scalar payload of a non-null cell, used by aggregations that skip nulls
(`min`, `max`, `count`); `none` for nulls and sequence cells. -/
def PValue.toKey : PValue → Option PBase
  | .scalar .bNull => none
  | .scalar b => some b
  | .seq _ => none

/-- Numeric payload of a cell as a rational, used by numeric aggregations;
`none` for non-numeric cells. -/
def PValue.toRat : PValue → Option ℚ
  | .scalar (.bInt i) => some (i : ℚ)
  | .scalar (.bFloat q) => some q
  | _ => none

/-- Integer payload of a cell; `none` for non-integer cells. -/
def PValue.toInt : PValue → Option Int
  | .scalar (.bInt i) => some i
  | _ => none

/-- Whether a cell is an integer or a null, the condition under which polars
keeps a column sum in integer type. -/
def PValue.intOrNull : PValue → Bool
  | .scalar (.bInt _) => true
  | .scalar .bNull => true
  | _ => false

/-- Date-component lexicographic comparison. -/
def dateLe (y1 m1 d1 y2 m2 d2 : Int) : Bool :=
  decide (y1 < y2 ∨ (y1 = y2 ∧ (m1 < m2 ∨ (m1 = m2 ∧ d1 ≤ d2))))

/-- Model of a polars `<=` comparison between two cell values, as used by the
filter expressions `pl.col(c).ge(x)` / `pl.col(c).le(x)`.  Matching numeric
types compare by value (integers and floats compare through a cast, as polars
casts before comparing); a comparison involving a null is null in polars and
the row is dropped by `filter`, modelled by returning `false`; remaining
mismatched shapes do not arise through the class API and also yield
`false`. -/
def pvLeB : PValue → PValue → Bool
  | .scalar (.bInt a), .scalar (.bInt b) => decide (a ≤ b)
  | .scalar (.bFloat a), .scalar (.bFloat b) => decide (a ≤ b)
  | .scalar (.bInt a), .scalar (.bFloat b) => decide ((a : ℚ) ≤ b)
  | .scalar (.bFloat a), .scalar (.bInt b) => decide (a ≤ (b : ℚ))
  | .scalar (.bStr a), .scalar (.bStr b) => decide (a ≤ b)
  | .scalar (.bDate y1 m1 d1), .scalar (.bDate y2 m2 d2) => dateLe y1 m1 d1 y2 m2 d2
  | _, _ => false

/-- Model of a polars `DataFrame`: named columns over a list of rows; cell
`i` of each row belongs to column `i`. -/
structure Frame where
  cols : List String
  rows : List (List PValue)
deriving DecidableEq

/-- Position of a column name in the header, `none` when absent. -/
def Frame.colIndex (cols : List String) (c : String) : Option ℕ :=
  cols.findIdx? (fun x => x = c)

/-- Value of the named column in one row (null when the column or the cell is
missing; the class API validates names, so the default does not arise through
it). -/
def rowValue (cols : List String) (r : List PValue) (c : String) : PValue :=
  match Frame.colIndex cols c with
  | some i => r.getD i (.scalar .bNull)
  | none => .scalar .bNull

/-- All values of the named column, in row order. -/
def columnValues (cols : List String) (rows : List (List PValue)) (c : String) :
    List PValue :=
  rows.map (fun r => rowValue cols r c)

/-- Model of `polars.Series.min`: smallest non-null scalar of the series,
null when there is none.  Computed as the head of the ascending insertion
sort of the non-null scalars. -/
def seriesMin (vs : List PValue) : PValue :=
  match (vs.filterMap PValue.toKey).insertionSort (· ≤ ·) with
  | [] => .scalar .bNull
  | k :: _ => .scalar k

/-- Model of `polars.Series.max`: largest non-null scalar of the series,
null when there is none.  Computed as the head of the descending insertion
sort of the non-null scalars. -/
def seriesMax (vs : List PValue) : PValue :=
  match (vs.filterMap PValue.toKey).insertionSort (· ≥ ·) with
  | [] => .scalar .bNull
  | k :: _ => .scalar k

/-- Model of `polars.Series.sum` / `pl.sum`: nulls are skipped; a column of
integers (and nulls) sums to an integer, any float content promotes the sum
to float.  The empty sum is the integer zero, as in polars. -/
def seriesSum (vs : List PValue) : PValue :=
  if vs.all PValue.intOrNull then .scalar (.bInt (vs.filterMap PValue.toInt).sum)
  else .scalar (.bFloat (vs.filterMap PValue.toRat).sum)

/-- Model of `pl.count`: the number of non-null values of the column. -/
def seriesCount (vs : List PValue) : PValue :=
  .scalar (.bInt (vs.countP (fun v => v.toKey ≠ none)))

/-- Mean of two rationals, written on numerators and denominators so that it
evaluates by kernel reduction; `ratMean_eq` identifies it with
`(a + b) / 2`. -/
def ratMean (a b : ℚ) : ℚ :=
  mkRat (a.num * (b.den : Int) + b.num * (a.den : Int)) (2 * a.den * b.den)

theorem ratMean_eq (a b : ℚ) : ratMean a b = (a + b) / 2 := by
  rw [ratMean, Rat.mkRat_eq_div]
  rw [div_eq_div_iff (by push_cast; positivity)
    (by norm_num)]
  push_cast
  have ha : a * (a.den : ℚ) = (a.num : ℚ) := by
    nth_rewrite 1 [← Rat.num_div_den a]
    exact div_mul_cancel₀ _ (by exact_mod_cast a.den_ne_zero)
  have hb : b * (b.den : ℚ) = (b.num : ℚ) := by
    nth_rewrite 1 [← Rat.num_div_den b]
    exact div_mul_cancel₀ _ (by exact_mod_cast b.den_ne_zero)
  rw [← ha, ← hb]
  ring

/-- Model of `pl.median`: sort the numeric values ascending; the middle value
for odd length, the mean of the two middle values for even length, null for
an empty column.  The result is a float, as in polars. -/
def seriesMedian (vs : List PValue) : PValue :=
  let qs := (vs.filterMap PValue.toRat).insertionSort (· ≤ ·)
  if qs.length = 0 then .scalar .bNull
  else if qs.length % 2 = 1 then .scalar (.bFloat (qs.getD (qs.length / 2) 0))
  else .scalar (.bFloat (ratMean (qs.getD (qs.length / 2 - 1) 0) (qs.getD (qs.length / 2) 0)))

deriving instance DecidableEq for Except

/-- Errors surfaced by the class: Python `ValueError` with its message (used
by `validate_column_name` for unknown columns and by
`apply_dynamic_date_grouping` for unrecognised ranks), polars'
`ColumnNotFoundError` (raised by `DataFrame.get_column` on a missing name),
and polars' `InvalidOperationError` (raised when `group_by_dynamic` runs on
an index column that is not temporal or not sorted ascending; the message is
abstracted to a short description). -/
inductive PlError where
  | valueError : String → PlError
  | columnNotFound : String → PlError
  | invalidOperation : String → PlError
deriving DecidableEq

/-- Message of the `ValueError` raised by `PolarsView.validate_column_name`:
the f-string `Column name '{col_name}' not found in data view!`. -/
def unknownColumnMsg (c : String) : String :=
  "Column name " ++ "'" ++ c ++ "'" ++ " not found in data view!"

/-- Python `str` rendering of the `selection_rank` argument inside the
f-string of the invalid-rank `ValueError`: `None` renders as the literal
`None`, a string renders as its characters. -/
def rankDisplay : Option String → String
  | none => "None"
  | some s => s

/-- Message of the `ValueError` raised by the wildcard arm of
`apply_dynamic_date_grouping`: the f-string
`Unable to apply grouping based on input value '{selection_rank}'!`. -/
def invalidRankMsg (rank : Option String) : String :=
  "Unable to apply grouping based on input value " ++ "'" ++ rankDisplay rank ++ "'" ++ "!"

/-- Pending filter predicate built by `apply_filter_ge` / `apply_filter_le`:
`pl.col(col).ge(bound)` or `pl.col(col).le(bound)`. -/
inductive FilterExpr where
  | ge : String → PValue → FilterExpr
  | le : String → PValue → FilterExpr
deriving DecidableEq

/-- Evaluation of one filter predicate on one row: the column value compared
against the bound. -/
def evalFilterExpr (cols : List String) (r : List PValue) : FilterExpr → Bool
  | .ge c x => pvLeB x (rowValue cols r c)
  | .le c x => pvLeB (rowValue cols r c) x

/-- The polars aggregation functions passed to `apply_aggregation_rule` in
this repository (`pl.sum`, `pl.min`, `pl.max`, `pl.count`, `pl.median`). -/
inductive AggFunc where
  | sum : AggFunc
  | min : AggFunc
  | max : AggFunc
  | count : AggFunc
  | median : AggFunc
deriving DecidableEq

/-- Python `__name__` of the aggregation function, used by
`build_summary_expr` for the alias f-string. -/
def AggFunc.pyName : AggFunc → String
  | .sum => "sum"
  | .min => "min"
  | .max => "max"
  | .count => "count"
  | .median => "median"

/-- Application of an aggregation function to the values of a column. -/
def applyAggFunc : AggFunc → List PValue → PValue
  | .sum, vs => seriesSum vs
  | .min, vs => seriesMin vs
  | .max, vs => seriesMax vs
  | .count, vs => seriesCount vs
  | .median, vs => seriesMedian vs

/-- Cast target of `apply_series_rule` (its Python `dtype` argument, default
`float`). -/
inductive PDtype where
  | pfloat : PDtype
  | pint : PDtype
deriving DecidableEq

/-- Model of `pl.col(c).cast(dtype)` on one cell: integers cast to float by
exact conversion, floats cast to int by truncation toward zero (`Int.tdiv`,
matching the polars cast, which drops the fractional part rather than
flooring); a cast that does not apply leaves a null. -/
def castTo : PDtype → PValue → PBase
  | .pfloat, .scalar (.bInt i) => .bFloat (i : ℚ)
  | .pfloat, .scalar (.bFloat q) => .bFloat q
  | .pint, .scalar (.bInt i) => .bInt i
  | .pint, .scalar (.bFloat q) => .bInt (q.num.tdiv (q.den : Int))
  | _, _ => .bNull

/-- Pending aggregation expression: `summary c f` models
`col_func(col).alias(f"{col_func.__name__}_{col}")` built by
`build_summary_expr`; `implode c d` models
`pl.col(col).cast(dtype).implode().alias(f"{col}_implode")` built by
`apply_series_rule`. -/
inductive AggExpr where
  | summary : String → AggFunc → AggExpr
  | implode : String → PDtype → AggExpr
deriving DecidableEq

/-- Alias attached to an aggregation expression. -/
def aggLabel : AggExpr → String
  | .summary c f => f.pyName ++ "_" ++ c
  | .implode c _ => c ++ "_implode"

/-- Evaluation of one aggregation expression over the rows of one group. -/
def evalAgg (cols : List String) (rows : List (List PValue)) : AggExpr → PValue
  | .summary c f => applyAggFunc f (columnValues cols rows c)
  | .implode c d => .seq ((columnValues cols rows c).map (castTo d))

/-- Truncation of a date cell to the start of its calendar bucket, the key
function of `group_by_dynamic` for `every` in `{1y, 1m, 1d}` (polars windows
with these steps are calendar-aligned year/month/day starts).  Non-date
values are left unchanged. -/
def truncKey (step : String) : PValue → PValue
  | .scalar (.bDate y m d) =>
      if step = "1y" then .scalar (.bDate y 1 1)
      else if step = "1m" then .scalar (.bDate y m 1)
      else .scalar (.bDate y m d)
  | v => v

/-- Model of `lf.filter(self._filter_expressions)` guarded by the Python
truthiness test `if self._filter_expressions:`: an empty pending list leaves
the rows untouched, otherwise a row survives exactly when every pending
predicate holds (polars ANDs a list of filter expressions). -/
def filterRows (cols : List String) (exprs : List FilterExpr)
    (rows : List (List PValue)) : List (List PValue) :=
  if exprs.isEmpty then rows
  else rows.filter (fun r => exprs.all (fun e => evalFilterExpr cols r e))

/-- Distinct bucket keys of the rows: truncations of the grouping column,
deduplicated. -/
def groupKeys (cols : List String) (g s : String) (rows : List (List PValue)) :
    List PValue :=
  (rows.map (fun r => truncKey s (rowValue cols r g))).dedup

/-- The output row of one bucket: the bucket key followed by every pending
aggregation expression evaluated over exactly the rows of that bucket. -/
def bucketRow (cols : List String) (g s : String) (aggs : List AggExpr)
    (rows : List (List PValue)) (k : PValue) : List PValue :=
  k :: aggs.map (fun a =>
    evalAgg cols (rows.filter (fun r => decide (truncKey s (rowValue cols r g) = k))) a)

/-- Whether a cell holds a temporal (date) value, the dtype
`group_by_dynamic` accepts for a calendar `every` step. -/
def isDateCell : PValue → Bool
  | .scalar (.bDate _ _ _) => true
  | _ => false

/-- Non-strict ascending-sortedness check on the index column, using the
cell comparison `pvLeB` (calendar order on dates); `group_by_dynamic`
requires its index column sorted ascending and raises otherwise. -/
def sortedAsc : List PValue → Bool
  | [] => true
  | [_] => true
  | a :: b :: t => pvLeB a b && sortedAsc (b :: t)

/-- Model of `lf.group_by_dynamic(g, every=s).agg(aggs)` followed by
`collect`: fails with polars' `ColumnNotFoundError` when the grouping column
is absent, and with polars' `InvalidOperationError` when the index column is
not temporal or not sorted ascending (polars enforces both); otherwise one
output row per non-empty calendar bucket, keyed by the grouping column
truncated to the bucket start, each aggregation computed over the rows of
its bucket. -/
def groupByDynamic (cols : List String) (rows : List (List PValue))
    (g s : String) (aggs : List AggExpr) : Except PlError Frame :=
  if cols.contains g then
    if (columnValues cols rows g).all isDateCell then
      if sortedAsc (columnValues cols rows g) then
        .ok ⟨g :: aggs.map aggLabel,
          (groupKeys cols g s rows).map (bucketRow cols g s aggs rows)⟩
      else .error (.invalidOperation "group_by_dynamic: index column is not sorted ascending")
    else .error (.invalidOperation "group_by_dynamic: index column is not a temporal type")
  else .error (.columnNotFound g)

/-- State of a `PolarsView` instance: the tracked data frame and the pending
expression lists, mirroring the attributes set in `PolarsView.__init__`. -/
structure PolarsView where
  data_frame : Frame
  filter_expressions : List FilterExpr
  group_by_column : Option String
  group_by_step : Option String
  agg_expressions : List AggExpr
deriving DecidableEq

/-- Model of `PolarsView.__init__(df)`: empty pending lists, no bucketing
rule. -/
def PolarsView.init (df : Frame) : PolarsView :=
  ⟨df, [], none, none, []⟩

/-- Model of `PolarsView.validate_column_name`: succeeds silently when the
name is among the tracked frame's columns, otherwise raises a `ValueError`
with the documented message. -/
def PolarsView.validate_column_name (v : PolarsView) (c : String) :
    Except PlError Unit :=
  if v.data_frame.cols.contains c then .ok ()
  else .error (.valueError (unknownColumnMsg c))

/-- Model of `PolarsView.extract_data_spread`: `get_column` on the tracked
frame (polars' `ColumnNotFoundError` when the name is missing — the method
performs no `validate_column_name` call), then the `(min, max)` pair of the
series, ignoring pending filters. -/
def PolarsView.extract_data_spread (v : PolarsView) (c : String) :
    Except PlError (PValue × PValue) :=
  match Frame.colIndex v.data_frame.cols c with
  | some _ =>
      let vs := columnValues v.data_frame.cols v.data_frame.rows c
      .ok (seriesMin vs, seriesMax vs)
  | none => .error (.columnNotFound c)

/-- Model of `PolarsView.extract_data_total`: `get_column` on the tracked
frame (polars' `ColumnNotFoundError` when the name is missing — no
`validate_column_name` call), then the sum of the series, ignoring pending
filters. -/
def PolarsView.extract_data_total (v : PolarsView) (c : String) :
    Except PlError PValue :=
  match Frame.colIndex v.data_frame.cols c with
  | some _ => .ok (seriesSum (columnValues v.data_frame.cols v.data_frame.rows c))
  | none => .error (.columnNotFound c)

/-- Model of `PolarsView.apply_dynamic_date_grouping`: validate the column
first; then a Python `match` on the rank sets the bucketing rule and returns
the display format for `Year`, `Month` and `Day`, while the wildcard arm
clears both rule fields and raises a `ValueError` embedding the offending
value.  The rank is an `Option String` because the UI may pass `None`.  Each
method returns the post-call state together with the raised error or the
returned value, mirroring Python exception flow. -/
def PolarsView.apply_dynamic_date_grouping (v : PolarsView)
    (rank : Option String) (c : String) : PolarsView × Except PlError String :=
  match v.validate_column_name c with
  | .error e => (v, .error e)
  | .ok _ =>
      if rank = some "Year" then
        ({ v with group_by_column := some c, group_by_step := some "1y" }, .ok "YYYY")
      else if rank = some "Month" then
        ({ v with group_by_column := some c, group_by_step := some "1m" }, .ok "YYYY MMMM")
      else if rank = some "Day" then
        ({ v with group_by_column := some c, group_by_step := some "1d" }, .ok "YYYY MMM DD")
      else
        ({ v with group_by_column := none, group_by_step := none },
          .error (.valueError (invalidRankMsg rank)))

/-- Model of `PolarsView.apply_filter_ge`: validate the column, then append
`pl.col(c).ge(x)` to the pending filter list. -/
def PolarsView.apply_filter_ge (v : PolarsView) (c : String) (x : PValue) :
    PolarsView × Except PlError Unit :=
  match v.validate_column_name c with
  | .error e => (v, .error e)
  | .ok _ =>
      ({ v with filter_expressions := v.filter_expressions ++ [FilterExpr.ge c x] }, .ok ())

/-- Model of `PolarsView.apply_filter_le`: validate the column, then append
`pl.col(c).le(x)` to the pending filter list. -/
def PolarsView.apply_filter_le (v : PolarsView) (c : String) (x : PValue) :
    PolarsView × Except PlError Unit :=
  match v.validate_column_name c with
  | .error e => (v, .error e)
  | .ok _ =>
      ({ v with filter_expressions := v.filter_expressions ++ [FilterExpr.le c x] }, .ok ())

/-- Model of the static `PolarsView.build_summary_expr`: the aliased
expression together with its dynamically built label
`f"{col_func.__name__}_{col_name}"`. -/
def PolarsView.build_summary_expr (c : String) (f : AggFunc) : String × AggExpr :=
  (f.pyName ++ "_" ++ c, AggExpr.summary c f)

/-- Model of `PolarsView.apply_aggregation_rule`: validate the column, build
the summary expression, append it to the pending aggregation list and return
its label. -/
def PolarsView.apply_aggregation_rule (v : PolarsView) (c : String) (f : AggFunc) :
    PolarsView × Except PlError String :=
  match v.validate_column_name c with
  | .error e => (v, .error e)
  | .ok _ =>
      let p := PolarsView.build_summary_expr c f
      ({ v with agg_expressions := v.agg_expressions ++ [p.2] }, .ok p.1)

/-- Model of `PolarsView.apply_series_rule`: validate the column, append the
cast-and-implode expression aliased `f"{col_name}_implode"` to the pending
aggregation list and return the label.  The Python `dtype` default is
`float`. -/
def PolarsView.apply_series_rule (v : PolarsView) (c : String)
    (d : PDtype := .pfloat) : PolarsView × Except PlError String :=
  match v.validate_column_name c with
  | .error e => (v, .error e)
  | .ok _ =>
      ({ v with agg_expressions := v.agg_expressions ++ [AggExpr.implode c d] },
        .ok (c ++ "_implode"))

/-- Model of `PolarsView.resolve_view`: filter the tracked frame when the
pending filter list is truthy (non-empty), then — only when the truthiness
test `if self._group_by_column and self._group_by_step:` passes, which in
Python requires both fields set *and* both strings non-empty — apply the
dynamic grouping with the pending aggregations; otherwise return the
filtered rows with all original columns.  The method assigns no attribute,
so it leaves the builder's state untouched. -/
def PolarsView.resolve_view (v : PolarsView) : Except PlError Frame :=
  let rows1 := filterRows v.data_frame.cols v.filter_expressions v.data_frame.rows
  match v.group_by_column, v.group_by_step with
  | some g, some s =>
      if g ≠ "" ∧ s ≠ "" then groupByDynamic v.data_frame.cols rows1 g s v.agg_expressions
      else .ok ⟨v.data_frame.cols, rows1⟩
  | _, _ => .ok ⟨v.data_frame.cols, rows1⟩

/-- Call-level view of `resolve_view`: the post-call state paired with the
result.  The source method performs no attribute assignment, so the post-call
state is the receiver itself. -/
def PolarsView.resolve_view_call (v : PolarsView) :
    PolarsView × Except PlError Frame :=
  (v, v.resolve_view)

/-- States reachable from a freshly constructed `PolarsView` through any
sequence of method calls, following both success and failure paths (a Python
exception leaves the object in whatever state the method produced before
raising). -/
inductive Reaches : PolarsView → Prop where
  | init (df : Frame) : Reaches (PolarsView.init df)
  | filter_ge (v : PolarsView) (c : String) (x : PValue) :
      Reaches v → Reaches (v.apply_filter_ge c x).1
  | filter_le (v : PolarsView) (c : String) (x : PValue) :
      Reaches v → Reaches (v.apply_filter_le c x).1
  | date_grouping (v : PolarsView) (rank : Option String) (c : String) :
      Reaches v → Reaches (v.apply_dynamic_date_grouping rank c).1
  | aggregation_rule (v : PolarsView) (c : String) (f : AggFunc) :
      Reaches v → Reaches (v.apply_aggregation_rule c f).1
  | series_rule (v : PolarsView) (c : String) (d : PDtype) :
      Reaches v → Reaches (v.apply_series_rule c d).1
  | resolve (v : PolarsView) :
      Reaches v → Reaches v.resolve_view_call.1

/-- Shorthand for an integer cell. -/
def pInt (i : Int) : PValue := .scalar (.bInt i)

/-- Shorthand for a float cell. -/
def pFloat (q : ℚ) : PValue := .scalar (.bFloat q)

/-- Shorthand for a string cell. -/
def pStr (s : String) : PValue := .scalar (.bStr s)

/-- Shorthand for a date cell. -/
def pDate (y m d : Int) : PValue := .scalar (.bDate y m d)

/-- The two-column fixture of the unit-test suite (`create_dummy_df`):
`a = [1, 2, 3]`, `b = [a, b, c]`. -/
def dummyFrame : Frame :=
  ⟨["a", "b"], [[pInt 1, pStr "a"], [pInt 2, pStr "b"], [pInt 3, pStr "c"]]⟩

/-- The fixture of Scenario A: the dummy frame with a date column holding
1987-12-12, 1986-11-11, 2000-01-01 (the middle value first). -/
def frameA : Frame :=
  ⟨["a", "b", "date"],
    [[pInt 1, pStr "a", pDate 1987 12 12],
     [pInt 2, pStr "b", pDate 1986 11 11],
     [pInt 3, pStr "c", pDate 2000 1 1]]⟩

/-- The fixture of Scenario C: the dummy frame with a `grouping` date column
holding 2000-01-01, 2000-01-01, 2001-01-01. -/
def frameC : Frame :=
  ⟨["a", "b", "grouping"],
    [[pInt 1, pStr "a", pDate 2000 1 1],
     [pInt 2, pStr "b", pDate 2000 1 1],
     [pInt 3, pStr "c", pDate 2001 1 1]]⟩

/-- Scenario C builder state: `add_reduction('a', median)` then
`set_time_bucket('Year', 'grouping')` over `frameC`. -/
def viewC : PolarsView :=
  (((PolarsView.init frameC).apply_aggregation_rule "a" .median).1.apply_dynamic_date_grouping
    (some "Year") "grouping").1

/-- Scenario B builder state: `add_filter_ge('a', 2)` over the dummy
frame. -/
def viewB : PolarsView :=
  ((PolarsView.init dummyFrame).apply_filter_ge "a" (pInt 2)).1

/-- Scenario D builder state: `add_sequence('a')` (default `float` dtype)
over the dummy frame, with no bucketing rule. -/
def viewD : PolarsView :=
  ((PolarsView.init dummyFrame).apply_series_rule "a").1

/-- A frame whose date column is named by the empty string (a legal polars
column name), used to exhibit the truthiness gap of `resolve_view`. -/
def frameE : Frame :=
  ⟨["", "x"], [[pDate 2000 1 1, pInt 1], [pDate 2001 1 1, pInt 2]]⟩

/-- Builder state over `frameE` after `set_time_bucket('Year', '')`: a
complete, validated bucketing rule whose column name is the empty string. -/
def viewE : PolarsView :=
  ((PolarsView.init frameE).apply_dynamic_date_grouping (some "Year") "").1

/-- Permutation fixture: two rows of one calendar-year bucket, in the given
order. -/
def framePerm1 : Frame :=
  ⟨["grouping", "a"],
    [[pDate 2000 1 1, pInt 1], [pDate 2000 2 1, pInt 2]]⟩

/-- Permutation fixture: the same two rows in the opposite order. -/
def framePerm2 : Frame :=
  ⟨["grouping", "a"],
    [[pDate 2000 2 1, pInt 2], [pDate 2000 1 1, pInt 1]]⟩

/-- Builder state with a pending `median` reduction and a yearly bucketing
rule over the date-sorted `framePerm1`. -/
def viewPerm1 : PolarsView :=
  (((PolarsView.init framePerm1).apply_aggregation_rule "a"
    .median).1.apply_dynamic_date_grouping (some "Year") "grouping").1

/-- The same pending state over the row-permuted (descending, hence
unsorted) `framePerm2`. -/
def viewPerm2 : PolarsView :=
  (((PolarsView.init framePerm2).apply_aggregation_rule "a"
    .median).1.apply_dynamic_date_grouping (some "Year") "grouping").1

/-- Equal-date fixture: two rows sharing one date, in the given order.  Any
permutation of its rows keeps the date column sorted. -/
def framePermEq1 : Frame :=
  ⟨["grouping", "a"],
    [[pDate 2000 1 1, pInt 1], [pDate 2000 1 1, pInt 2]]⟩

/-- Equal-date fixture: the same two rows in the opposite order. -/
def framePermEq2 : Frame :=
  ⟨["grouping", "a"],
    [[pDate 2000 1 1, pInt 2], [pDate 2000 1 1, pInt 1]]⟩

/-- Builder state with a pending `implode` sequence expression and a yearly
bucketing rule over `framePermEq1`. -/
def viewSeqEq1 : PolarsView :=
  (((PolarsView.init framePermEq1).apply_series_rule "a").1.apply_dynamic_date_grouping
    (some "Year") "grouping").1

/-- The same implode state over the row-swapped `framePermEq2` (still
sorted, since the dates are equal). -/
def viewSeqEq2 : PolarsView :=
  (((PolarsView.init framePermEq2).apply_series_rule "a").1.apply_dynamic_date_grouping
    (some "Year") "grouping").1

/-- Builder state with a pending `median` reduction and a yearly bucketing
rule over `framePermEq1`. -/
def viewRedEq1 : PolarsView :=
  (((PolarsView.init framePermEq1).apply_aggregation_rule "a"
    .median).1.apply_dynamic_date_grouping (some "Year") "grouping").1

/-- The same reduction state over the row-swapped `framePermEq2`. -/
def viewRedEq2 : PolarsView :=
  (((PolarsView.init framePermEq2).apply_aggregation_rule "a"
    .median).1.apply_dynamic_date_grouping (some "Year") "grouping").1

/-- A `contains` check on the header is exactly membership of the name. -/
theorem contains_true_iff (l : List String) (c : String) :
    l.contains c = true ↔ c ∈ l := by
  simp [List.contains_eq_any_beq, List.any_eq_true, beq_iff_eq, eq_comm]

/-- A failed `contains` check means the header has no matching position. -/
theorem colIndex_eq_none (cols : List String) (c : String)
    (h : cols.contains c = false) : Frame.colIndex cols c = none := by
  rw [Frame.colIndex, List.findIdx?_eq_none_iff]
  intro x hx
  simp only [decide_eq_false_iff_not]
  rintro rfl
  rw [← Bool.not_eq_true, contains_true_iff] at h
  exact h hx

/-- A successful `contains` check yields a position in the header. -/
theorem colIndex_isSome (cols : List String) (c : String)
    (h : cols.contains c = true) : ∃ i, Frame.colIndex cols c = some i := by
  rw [contains_true_iff] at h
  rw [Frame.colIndex]
  rcases hn : List.findIdx? (fun x => decide (x = c)) cols with _ | i
  · rw [List.findIdx?_eq_none_iff] at hn
    have := hn c h
    simp at this
  · exact ⟨i, rfl⟩

/-- Insertion sort is invariant under permutation of its input, for any
total, transitive, antisymmetric decidable relation. -/
theorem insertionSort_perm_congr {α : Type} (r : α → α → Prop) [DecidableRel r]
    [IsTotal α r] [IsTrans α r] [IsAntisymm α r] {l l' : List α}
    (h : l.Perm l') : l.insertionSort r = l'.insertionSort r :=
  List.eq_of_perm_of_sorted
    ((List.perm_insertionSort r l).trans (h.trans (List.perm_insertionSort r l').symm))
    (List.sorted_insertionSort r l) (List.sorted_insertionSort r l')

/-- The `all` test is invariant under permutation of the list. -/
theorem all_perm_congr {α : Type} (p : α → Bool) {l l' : List α}
    (h : l.Perm l') : l.all p = l'.all p := by
  rw [Bool.eq_iff_iff]
  simp only [List.all_eq_true]
  exact ⟨fun H x hx => H x (h.mem_iff.mpr hx), fun H x hx => H x (h.mem_iff.mp hx)⟩

theorem seriesMin_perm {vs vs' : List PValue} (h : vs.Perm vs') :
    seriesMin vs = seriesMin vs' := by
  rw [seriesMin, seriesMin,
    insertionSort_perm_congr (· ≤ ·) (h.filterMap PValue.toKey)]

theorem seriesMax_perm {vs vs' : List PValue} (h : vs.Perm vs') :
    seriesMax vs = seriesMax vs' := by
  rw [seriesMax, seriesMax,
    insertionSort_perm_congr (· ≥ ·) (h.filterMap PValue.toKey)]

theorem seriesSum_perm {vs vs' : List PValue} (h : vs.Perm vs') :
    seriesSum vs = seriesSum vs' := by
  rw [seriesSum, seriesSum, all_perm_congr PValue.intOrNull h,
    (h.filterMap PValue.toInt).sum_eq, (h.filterMap PValue.toRat).sum_eq]

theorem seriesCount_perm {vs vs' : List PValue} (h : vs.Perm vs') :
    seriesCount vs = seriesCount vs' := by
  rw [seriesCount, seriesCount, List.Perm.countP_eq _ h]

theorem seriesMedian_perm {vs vs' : List PValue} (h : vs.Perm vs') :
    seriesMedian vs = seriesMedian vs' := by
  rw [seriesMedian, seriesMedian,
    insertionSort_perm_congr (· ≤ ·) (h.filterMap PValue.toRat)]

/-- Every modelled aggregation function is invariant under permutation of the
column values it reduces. -/
theorem applyAggFunc_perm (f : AggFunc) {vs vs' : List PValue}
    (h : vs.Perm vs') : applyAggFunc f vs = applyAggFunc f vs' := by
  cases f
  · exact seriesSum_perm h
  · exact seriesMin_perm h
  · exact seriesMax_perm h
  · exact seriesCount_perm h
  · exact seriesMedian_perm h

/-- C1: with no pending time-bucketing rule, `resolve_view` ignores every
pending aggregation and sequence expression and returns the filtered source
table as-is; in particular, with no pending filters either, it returns a
table identical to the tracked source table. -/
theorem resolve_no_bucketing_is_filtered_source (v : PolarsView)
    (hg : v.group_by_column = none) (hs : v.group_by_step = none) :
    v.resolve_view = PolarsView.resolve_view { v with agg_expressions := [] } ∧
    v.resolve_view =
      .ok ⟨v.data_frame.cols,
        filterRows v.data_frame.cols v.filter_expressions v.data_frame.rows⟩ ∧
    (v.filter_expressions = [] → v.resolve_view = .ok v.data_frame) := by
  refine ⟨?_, ?_, ?_⟩
  · simp [PolarsView.resolve_view, hg, hs]
  · simp [PolarsView.resolve_view, hg, hs]
  · intro hf
    simp [PolarsView.resolve_view, hg, hs, filterRows, hf]

/-- Witness for C1: the dummy fixture with no pending operations resolves to
the source table itself. -/
theorem resolve_no_bucketing_is_filtered_source_witness :
    (PolarsView.init dummyFrame).resolve_view = .ok dummyFrame :=
  (resolve_no_bucketing_is_filtered_source (PolarsView.init dummyFrame)
    rfl rfl).2.2 rfl

/-- C7: `resolve_view` mutates nothing — after a call the tracked frame, the
pending filter list, the aggregation list and the bucketing rule are exactly
as before, and resolving again from the post-call state deterministically
returns the same table. -/
theorem resolve_view_preserves_state (v : PolarsView) :
    v.resolve_view_call.1 = v ∧
    v.resolve_view_call.1.filter_expressions = v.filter_expressions ∧
    v.resolve_view_call.1.agg_expressions = v.agg_expressions ∧
    v.resolve_view_call.1.group_by_column = v.group_by_column ∧
    v.resolve_view_call.1.group_by_step = v.group_by_step ∧
    v.resolve_view_call.1.data_frame = v.data_frame ∧
    v.resolve_view_call.1.resolve_view_call.2 = v.resolve_view_call.2 :=
  ⟨rfl, rfl, rfl, rfl, rfl, rfl, rfl⟩

/-- C3: referencing a column absent from the source table makes every
validating operation fail with the unknown-column `ValueError` and leave the
builder's state exactly unchanged (validation precedes every mutation). -/
theorem unknown_column_rejected_without_mutation (v : PolarsView) (c : String)
    (hc : v.data_frame.cols.contains c = false) :
    v.validate_column_name c = .error (.valueError (unknownColumnMsg c)) ∧
    (∀ x, v.apply_filter_ge c x = (v, .error (.valueError (unknownColumnMsg c)))) ∧
    (∀ x, v.apply_filter_le c x = (v, .error (.valueError (unknownColumnMsg c)))) ∧
    (∀ rank, v.apply_dynamic_date_grouping rank c =
      (v, .error (.valueError (unknownColumnMsg c)))) ∧
    (∀ f, v.apply_aggregation_rule c f = (v, .error (.valueError (unknownColumnMsg c)))) ∧
    (∀ d, v.apply_series_rule c d = (v, .error (.valueError (unknownColumnMsg c)))) := by
  have hmem : c ∉ v.data_frame.cols := by
    rw [← contains_true_iff, hc]
    exact Bool.false_ne_true
  have hv : v.validate_column_name c = .error (.valueError (unknownColumnMsg c)) := by
    simp [PolarsView.validate_column_name, hmem]
  refine ⟨hv, ?_, ?_, ?_, ?_, ?_⟩ <;> intro a <;>
    simp [PolarsView.apply_filter_ge, PolarsView.apply_filter_le,
      PolarsView.apply_dynamic_date_grouping, PolarsView.apply_aggregation_rule,
      PolarsView.apply_series_rule, hv]

/-- Witness for C3: the column `banana` is missing from the dummy fixture and
every operation on it fails with the documented message, leaving the freshly
constructed state unchanged. -/
theorem unknown_column_rejected_without_mutation_witness :
    (PolarsView.init dummyFrame).apply_filter_ge "banana" (pInt (-1)) =
      (PolarsView.init dummyFrame,
        .error (.valueError (unknownColumnMsg "banana"))) :=
  (unknown_column_rejected_without_mutation (PolarsView.init dummyFrame) "banana"
    (by decide)).2.1 (pInt (-1))

/-- C5: with an existing column, `apply_dynamic_date_grouping` maps
`Year`, `Month`, `Day` to the documented bucket steps and display formats,
and every other rank (including Python `None`) fails with the invalid-rank
`ValueError` embedding the offending value, clearing the bucketing rule —
including any previously registered one. -/
theorem set_time_bucket_rank_contract (v : PolarsView) (c : String)
    (hc : v.data_frame.cols.contains c = true) :
    v.apply_dynamic_date_grouping (some "Year") c =
      ({ v with group_by_column := some c, group_by_step := some "1y" }, .ok "YYYY") ∧
    v.apply_dynamic_date_grouping (some "Month") c =
      ({ v with group_by_column := some c, group_by_step := some "1m" }, .ok "YYYY MMMM") ∧
    v.apply_dynamic_date_grouping (some "Day") c =
      ({ v with group_by_column := some c, group_by_step := some "1d" }, .ok "YYYY MMM DD") ∧
    (∀ rank, rank ≠ some "Year" → rank ≠ some "Month" → rank ≠ some "Day" →
      v.apply_dynamic_date_grouping rank c =
        ({ v with group_by_column := none, group_by_step := none },
          .error (.valueError (invalidRankMsg rank)))) := by
  have hv : v.validate_column_name c = .ok () := by
    simp [PolarsView.validate_column_name, (contains_true_iff _ _).mp hc]
  refine ⟨?_, ?_, ?_, ?_⟩
  · simp [PolarsView.apply_dynamic_date_grouping, hv]
  · simp [PolarsView.apply_dynamic_date_grouping, hv]
  · simp [PolarsView.apply_dynamic_date_grouping, hv]
  · intro rank h1 h2 h3
    simp [PolarsView.apply_dynamic_date_grouping, hv, h1, h2, h3]

/-- Witness for C5 (Scenario E): `set_time_bucket(None, 'a')` on the dummy
fixture — where a previous `Year` rule was registered — fails with the
message embedding the literal `None` and leaves the rule cleared. -/
theorem set_time_bucket_rank_contract_witness :
    (((PolarsView.init dummyFrame).apply_dynamic_date_grouping (some "Year") "a").1.apply_dynamic_date_grouping
        none "a") =
      ({ PolarsView.init dummyFrame with group_by_column := none, group_by_step := none },
        .error (.valueError "Unable to apply grouping based on input value 'None'!")) := by
  have h := (set_time_bucket_rank_contract
    ((PolarsView.init dummyFrame).apply_dynamic_date_grouping (some "Year") "a").1 "a"
    (by decide)).2.2.2 none (by decide) (by decide) (by decide)
  rw [h]
  decide

/-- The filter stage equals an unconditional conjunction filter: the
truthiness guard on the empty pending list changes nothing, because an empty
conjunction keeps every row. -/
theorem filterRows_eq_filter (cols : List String) (exprs : List FilterExpr)
    (rows : List (List PValue)) :
    filterRows cols exprs rows =
      rows.filter (fun r => exprs.all (fun e => evalFilterExpr cols r e)) := by
  rw [filterRows]
  split
  · rename_i h
    rw [List.isEmpty_iff] at h
    subst h
    simp
  · rfl

/-- C6: with only pending filter predicates (no bucketing rule),
`resolve_view` returns exactly the rows satisfying the conjunction of all
pending predicates, with all original columns; concretely, Scenario B:
`add_filter_ge('a', 2)` over `a = [1, 2, 3]` keeps the two rows with
`a ∈ {2, 3}`. -/
theorem resolve_filters_only_returns_matching_rows :
    (∀ v : PolarsView, v.group_by_column = none → v.group_by_step = none →
      ∃ F, v.resolve_view = .ok F ∧ F.cols = v.data_frame.cols ∧
        F.rows = v.data_frame.rows.filter
          (fun r => v.filter_expressions.all (fun e => evalFilterExpr v.data_frame.cols r e)) ∧
        (∀ r, r ∈ F.rows ↔ r ∈ v.data_frame.rows ∧
          ∀ e ∈ v.filter_expressions, evalFilterExpr v.data_frame.cols r e = true)) ∧
    viewB.resolve_view = .ok ⟨["a", "b"], [[pInt 2, pStr "b"], [pInt 3, pStr "c"]]⟩ := by
  constructor
  · intro v hg hs
    refine ⟨⟨v.data_frame.cols,
      v.data_frame.rows.filter
        (fun r => v.filter_expressions.all (fun e => evalFilterExpr v.data_frame.cols r e))⟩,
      ?_, rfl, rfl, ?_⟩
    · simp [PolarsView.resolve_view, hg, hs, filterRows_eq_filter]
    · intro r
      simp [List.mem_filter, List.all_eq_true]
  · decide

/-- Witness for C6: the general clause applied to the Scenario B builder
state. -/
theorem resolve_filters_only_returns_matching_rows_witness :
    ∃ F, viewB.resolve_view = .ok F ∧ F.cols = viewB.data_frame.cols ∧
      F.rows = viewB.data_frame.rows.filter
        (fun r => viewB.filter_expressions.all
          (fun e => evalFilterExpr viewB.data_frame.cols r e)) ∧
      (∀ r, r ∈ F.rows ↔ r ∈ viewB.data_frame.rows ∧
        ∀ e ∈ viewB.filter_expressions, evalFilterExpr viewB.data_frame.cols r e = true) :=
  resolve_filters_only_returns_matching_rows.1 viewB (by decide) (by decide)

/-- C8 counterexample: with a pending `add_sequence('a')` expression and no
bucketing rule, `resolve_view` does not produce an `a_implode` column — it
returns the raw source table unchanged (no single implicit group is
formed). -/
theorem sequence_without_bucketing_counterexample :
    viewD.agg_expressions = [AggExpr.implode "a" .pfloat] ∧
    viewD.group_by_column = none ∧
    viewD.resolve_view = .ok dummyFrame ∧
    "a_implode" ∉ dummyFrame.cols := by
  decide

/-- C8 amended: `add_sequence('a')` registers the expression labelled
`a_implode`, but with no bucketing rule `resolve_view` ignores it and returns
the raw rows; the pending expression itself, evaluated over the three rows as
one group, collects `a_implode = [1.0, 2.0, 3.0]` (cast to the default
floating type). -/
theorem sequence_expression_contract :
    ((PolarsView.init dummyFrame).apply_series_rule "a").2 = .ok "a_implode" ∧
    viewD.agg_expressions = [AggExpr.implode "a" .pfloat] ∧
    viewD.resolve_view = .ok dummyFrame ∧
    aggLabel (AggExpr.implode "a" .pfloat) = "a_implode" ∧
    evalAgg dummyFrame.cols dummyFrame.rows (AggExpr.implode "a" .pfloat) =
      .seq [.bFloat 1, .bFloat 2, .bFloat 3] := by
  decide

/-- C10 counterexample: over a frame whose date column is named by the empty
string, `set_time_bucket('Year', '')` installs a complete, validated
bucketing rule, yet `resolve_view` does not apply the group-by branch — the
Python truthiness test `if self._group_by_column and self._group_by_step:`
treats the empty column name as falsy and returns the raw table instead. -/
theorem bucketing_rule_truthiness_counterexample :
    viewE.group_by_column = some "" ∧
    viewE.group_by_step = some "1y" ∧
    "" ∈ viewE.data_frame.cols ∧
    viewE.resolve_view = .ok frameE ∧
    groupByDynamic viewE.data_frame.cols
        (filterRows viewE.data_frame.cols viewE.filter_expressions viewE.data_frame.rows)
        "" "1y" viewE.agg_expressions ≠ .ok frameE := by
  decide

/-- C4 counterexample: `extract_data_spread` on a missing column does not go
through the builder's validation contract — it surfaces polars'
`ColumnNotFoundError`, a different error from the `ValueError` that
`validate_column_name` (and every validating mutator) raises for the same
column. -/
theorem extract_validation_counterexample :
    (PolarsView.init dummyFrame).extract_data_spread "banana" =
      .error (.columnNotFound "banana") ∧
    (PolarsView.init dummyFrame).extract_data_total "banana" =
      .error (.columnNotFound "banana") ∧
    (PolarsView.init dummyFrame).validate_column_name "banana" =
      .error (.valueError (unknownColumnMsg "banana")) ∧
    PlError.columnNotFound "banana" ≠ PlError.valueError (unknownColumnMsg "banana") := by
  decide

/-- The minimum of a series is a scalar bounded above by every non-null
value of the series. -/
theorem seriesMin_le {vs : List PValue} {x : PValue} {k : PBase}
    (hx : x ∈ vs) (hk : x.toKey = some k) :
    ∃ ka, seriesMin vs = .scalar ka ∧ ka ≤ k := by
  have hmem : k ∈ vs.filterMap PValue.toKey := List.mem_filterMap.mpr ⟨x, hx, hk⟩
  have hmem2 : k ∈ (vs.filterMap PValue.toKey).insertionSort (· ≤ ·) :=
    ((List.perm_insertionSort _ _).mem_iff).mpr hmem
  rcases hs : (vs.filterMap PValue.toKey).insertionSort (· ≤ ·) with _ | ⟨ka, tl⟩
  · rw [hs] at hmem2
    cases hmem2
  · refine ⟨ka, by simp only [seriesMin, hs], ?_⟩
    rw [hs] at hmem2
    rcases List.mem_cons.mp hmem2 with h | h
    · exact h ▸ le_refl _
    · have hsorted := List.sorted_insertionSort (· ≤ ·) (vs.filterMap PValue.toKey)
      rw [hs] at hsorted
      exact List.rel_of_sorted_cons hsorted k h

/-- The maximum of a series is a scalar bounded below by every non-null
value of the series. -/
theorem seriesMax_ge {vs : List PValue} {x : PValue} {k : PBase}
    (hx : x ∈ vs) (hk : x.toKey = some k) :
    ∃ kb, seriesMax vs = .scalar kb ∧ k ≤ kb := by
  have hmem : k ∈ vs.filterMap PValue.toKey := List.mem_filterMap.mpr ⟨x, hx, hk⟩
  have hmem2 : k ∈ (vs.filterMap PValue.toKey).insertionSort (· ≥ ·) :=
    ((List.perm_insertionSort _ _).mem_iff).mpr hmem
  rcases hs : (vs.filterMap PValue.toKey).insertionSort (· ≥ ·) with _ | ⟨kb, tl⟩
  · rw [hs] at hmem2
    cases hmem2
  · refine ⟨kb, by simp only [seriesMax, hs], ?_⟩
    rw [hs] at hmem2
    rcases List.mem_cons.mp hmem2 with h | h
    · exact h ▸ le_refl _
    · have hsorted := List.sorted_insertionSort (· ≥ ·) (vs.filterMap PValue.toKey)
      rw [hs] at hsorted
      exact List.rel_of_sorted_cons hsorted k h

/-- C4 amended: `extract_data_spread` and `extract_data_total` fail on a
missing column with polars' `ColumnNotFoundError` (they perform no
`validate_column_name` call); for an existing column they return the
`(min, max)` pair and the sum over the *unfiltered* source table, ignoring
all pending builder state — concretely Scenario A and the dummy total. -/
theorem extract_operations_contract :
    (∀ (v : PolarsView) (c : String), v.data_frame.cols.contains c = false →
      v.extract_data_spread c = .error (.columnNotFound c) ∧
      v.extract_data_total c = .error (.columnNotFound c)) ∧
    (∀ (v : PolarsView) (c : String) (fs : List FilterExpr) (g s : Option String)
      (aggs : List AggExpr),
      PolarsView.extract_data_spread ⟨v.data_frame, fs, g, s, aggs⟩ c =
        v.extract_data_spread c ∧
      PolarsView.extract_data_total ⟨v.data_frame, fs, g, s, aggs⟩ c =
        v.extract_data_total c) ∧
    (∀ (v : PolarsView) (c : String) (a b : PValue),
      v.extract_data_spread c = .ok (a, b) →
      ∀ x ∈ columnValues v.data_frame.cols v.data_frame.rows c,
        ∀ k, x.toKey = some k →
          (∃ ka, a = .scalar ka ∧ ka ≤ k) ∧ (∃ kb, b = .scalar kb ∧ k ≤ kb)) ∧
    (PolarsView.init frameA).extract_data_spread "date" =
      .ok (pDate 1986 11 11, pDate 2000 1 1) ∧
    (PolarsView.init dummyFrame).extract_data_total "a" = .ok (pInt 6) := by
  refine ⟨?_, ?_, ?_, by decide, by decide⟩
  · intro v c hc
    constructor
    · simp [PolarsView.extract_data_spread, colIndex_eq_none _ _ hc]
    · simp [PolarsView.extract_data_total, colIndex_eq_none _ _ hc]
  · intro v c fs g s aggs
    exact ⟨rfl, rfl⟩
  · intro v c a b hab x hx k hk
    rw [PolarsView.extract_data_spread] at hab
    rcases hidx : Frame.colIndex v.data_frame.cols c with _ | i
    · rw [hidx] at hab
      cases hab
    · rw [hidx] at hab
      simp only [Except.ok.injEq, Prod.mk.injEq] at hab
      obtain ⟨ha, hb⟩ := hab
      refine ⟨?_, ?_⟩
      · obtain ⟨ka, h1, h2⟩ := seriesMin_le hx hk
        exact ⟨ka, ha ▸ h1.symm ▸ rfl, h2⟩
      · obtain ⟨kb, h1, h2⟩ := seriesMax_ge hx hk
        exact ⟨kb, hb ▸ h1.symm ▸ rfl, h2⟩

/-- Witness for C4: both extraction operations applied to the missing column
`banana` of the dummy fixture. -/
theorem extract_operations_contract_witness :
    (PolarsView.init dummyFrame).extract_data_spread "banana" =
      .error (.columnNotFound "banana") ∧
    (PolarsView.init dummyFrame).extract_data_total "banana" =
      .error (.columnNotFound "banana") :=
  extract_operations_contract.1 (PolarsView.init dummyFrame) "banana" (by decide)

/-- The bucketing-rule invariant: the two rule fields are either both unset,
or both set to a validated pair — an existing column together with one of the
three bucket steps. -/
def RuleInv (v : PolarsView) : Prop :=
  (v.group_by_column = none ∧ v.group_by_step = none) ∨
  (∃ c s, v.group_by_column = some c ∧ v.group_by_step = some s ∧
    c ∈ v.data_frame.cols ∧ (s = "1y" ∨ s = "1m" ∨ s = "1d"))

/-- The invariant only reads the two rule fields and the tracked frame, so it
transports along any state change that preserves them. -/
theorem RuleInv.of_fields {v w : PolarsView}
    (h1 : w.group_by_column = v.group_by_column)
    (h2 : w.group_by_step = v.group_by_step)
    (h3 : w.data_frame = v.data_frame) (h : RuleInv v) : RuleInv w := by
  unfold RuleInv at h ⊢
  rw [h1, h2, h3]
  exact h

/-- A successful validation means the column is present. -/
theorem validate_ok_mem {v : PolarsView} {c : String}
    (h : v.validate_column_name c = .ok ()) : c ∈ v.data_frame.cols := by
  by_cases hm : c ∈ v.data_frame.cols
  · exact hm
  · have hc : v.data_frame.cols.contains c = false := by
      rw [← Bool.not_eq_true, contains_true_iff]
      exact hm
    simp [PolarsView.validate_column_name, hm] at h

/-- C10 amended: every operation sequence keeps the two bucketing-rule fields
either both unset or both set to a validated `(existing column, 1y|1m|1d)`
pair; `resolve_view` applies the group-by branch exactly when a complete rule
is present *and* both strings are non-empty — the Python truthiness test
treats an empty column name as "no rule", falling back to the raw filtered
table. -/
theorem bucketing_rule_invariant :
    (∀ v, Reaches v → RuleInv v) ∧
    (∀ (v : PolarsView) (g s : String), v.group_by_column = some g →
      v.group_by_step = some s → g ≠ "" → s ≠ "" →
      v.resolve_view = groupByDynamic v.data_frame.cols
        (filterRows v.data_frame.cols v.filter_expressions v.data_frame.rows)
        g s v.agg_expressions) ∧
    (∀ v : PolarsView, (v.group_by_column = none ∨ v.group_by_step = none ∨
        v.group_by_column = some "" ∨ v.group_by_step = some "") →
      v.resolve_view = .ok ⟨v.data_frame.cols,
        filterRows v.data_frame.cols v.filter_expressions v.data_frame.rows⟩) := by
  refine ⟨?_, ?_, ?_⟩
  · intro v h
    induction h with
    | init df => exact Or.inl ⟨rfl, rfl⟩
    | filter_ge v c x hv ih =>
        cases hval : v.validate_column_name c with
        | error e => simpa [PolarsView.apply_filter_ge, hval] using ih
        | ok u =>
            simp only [PolarsView.apply_filter_ge, hval]
            exact RuleInv.of_fields rfl rfl rfl ih
    | filter_le v c x hv ih =>
        cases hval : v.validate_column_name c with
        | error e => simpa [PolarsView.apply_filter_le, hval] using ih
        | ok u =>
            simp only [PolarsView.apply_filter_le, hval]
            exact RuleInv.of_fields rfl rfl rfl ih
    | aggregation_rule v c f hv ih =>
        cases hval : v.validate_column_name c with
        | error e => simpa [PolarsView.apply_aggregation_rule, hval] using ih
        | ok u =>
            simp only [PolarsView.apply_aggregation_rule, hval]
            exact RuleInv.of_fields rfl rfl rfl ih
    | series_rule v c d hv ih =>
        cases hval : v.validate_column_name c with
        | error e => simpa [PolarsView.apply_series_rule, hval] using ih
        | ok u =>
            simp only [PolarsView.apply_series_rule, hval]
            exact RuleInv.of_fields rfl rfl rfl ih
    | resolve v hv ih => exact ih
    | date_grouping v rank c hv ih =>
        cases hval : v.validate_column_name c with
        | error e => simpa [PolarsView.apply_dynamic_date_grouping, hval] using ih
        | ok u =>
            obtain rfl : u = () := rfl
            have hmem : c ∈ v.data_frame.cols := validate_ok_mem hval
            by_cases h1 : rank = some "Year"
            · simp only [PolarsView.apply_dynamic_date_grouping, hval, h1, if_pos]
              exact Or.inr ⟨c, "1y", rfl, rfl, hmem, Or.inl rfl⟩
            · by_cases h2 : rank = some "Month"
              · simp only [PolarsView.apply_dynamic_date_grouping, hval, h1, h2,
                  if_neg h1, if_pos]
                exact Or.inr ⟨c, "1m", rfl, rfl, hmem, Or.inr (Or.inl rfl)⟩
              · by_cases h3 : rank = some "Day"
                · simp only [PolarsView.apply_dynamic_date_grouping, hval, h1, h2, h3,
                    if_neg h1, if_neg h2, if_pos]
                  exact Or.inr ⟨c, "1d", rfl, rfl, hmem, Or.inr (Or.inr rfl)⟩
                · simp only [PolarsView.apply_dynamic_date_grouping, hval,
                    if_neg h1, if_neg h2, if_neg h3]
                  exact Or.inl ⟨rfl, rfl⟩
  · intro v g s hg hs hgne hsne
    simp [PolarsView.resolve_view, hg, hs, hgne, hsne]
  · intro v hdisj
    rcases hdisj with h | h | h | h
    · cases hs : v.group_by_step <;> simp [PolarsView.resolve_view, h, hs]
    · cases hg : v.group_by_column <;> simp [PolarsView.resolve_view, h, hg]
    · cases hs : v.group_by_step <;> simp [PolarsView.resolve_view, h, hs]
    · cases hg : v.group_by_column <;> simp [PolarsView.resolve_view, h, hg]

/-- Witness for C10: the Scenario C state is reachable and keeps the
invariant with a complete rule that drives the group-by branch, while the
empty-column state of the counterexample falls back to the raw table. -/
theorem bucketing_rule_invariant_witness :
    RuleInv viewC ∧
    viewC.resolve_view = groupByDynamic viewC.data_frame.cols
      (filterRows viewC.data_frame.cols viewC.filter_expressions viewC.data_frame.rows)
      "grouping" "1y" viewC.agg_expressions ∧
    viewE.resolve_view = .ok ⟨viewE.data_frame.cols,
      filterRows viewE.data_frame.cols viewE.filter_expressions viewE.data_frame.rows⟩ :=
  ⟨bucketing_rule_invariant.1 viewC
      (Reaches.date_grouping _ (some "Year") "grouping"
        (Reaches.aggregation_rule _ "a" .median (Reaches.init frameC))),
    bucketing_rule_invariant.2.1 viewC "grouping" "1y" (by decide) (by decide)
      (by decide) (by decide),
    bucketing_rule_invariant.2.2 viewE (Or.inr (Or.inr (Or.inl (by decide))))⟩

/-- With the grouping column present, temporal and sorted ascending, the
dynamic grouping succeeds and produces the bucket-key column followed by
the aliased aggregation columns, one row per distinct bucket key. -/
theorem groupByDynamic_ok (cols : List String) (rows : List (List PValue))
    (g s : String) (aggs : List AggExpr) (h : cols.contains g = true)
    (hdate : (columnValues cols rows g).all isDateCell = true)
    (hsort : sortedAsc (columnValues cols rows g) = true) :
    groupByDynamic cols rows g s aggs = .ok ⟨g :: aggs.map aggLabel,
      (groupKeys cols g s rows).map (bucketRow cols g s aggs rows)⟩ := by
  simp [groupByDynamic, (contains_true_iff _ _).mp h, hdate, hsort]

/-- C2 amended: with a pending bucketing rule and pending aggregation
expressions, provided the (filtered) grouping column is temporal and sorted
ascending — the check `group_by_dynamic` enforces — `resolve_view`
partitions the filtered rows into calendar buckets keyed by the rule's
column truncated to the bucket size, and emits exactly one row per
non-empty bucket — the bucket key followed by every pending expression
evaluated over exactly the rows of that bucket; concretely, Scenario C
yields bucket 2000 with `median_a = 1.5` and bucket 2001 with
`median_a = 3`. -/
theorem resolve_bucketing_partitions :
    (∀ (v : PolarsView) (g s : String), v.group_by_column = some g →
      v.group_by_step = some s → g ≠ "" → s ≠ "" →
      v.data_frame.cols.contains g = true →
      (columnValues v.data_frame.cols
        (filterRows v.data_frame.cols v.filter_expressions v.data_frame.rows)
        g).all isDateCell = true →
      sortedAsc (columnValues v.data_frame.cols
        (filterRows v.data_frame.cols v.filter_expressions v.data_frame.rows)
        g) = true →
      ∃ F, v.resolve_view = .ok F ∧
        F.cols = g :: v.agg_expressions.map aggLabel ∧
        (∀ row, row ∈ F.rows ↔ ∃ k,
          k ∈ (filterRows v.data_frame.cols v.filter_expressions v.data_frame.rows).map
            (fun r => truncKey s (rowValue v.data_frame.cols r g)) ∧
          row = k :: v.agg_expressions.map (fun a => evalAgg v.data_frame.cols
            ((filterRows v.data_frame.cols v.filter_expressions v.data_frame.rows).filter
              (fun r => decide (truncKey s (rowValue v.data_frame.cols r g) = k))) a)) ∧
        F.rows.length = ((filterRows v.data_frame.cols v.filter_expressions
          v.data_frame.rows).map
            (fun r => truncKey s (rowValue v.data_frame.cols r g))).dedup.length) ∧
    viewC.resolve_view = .ok ⟨["grouping", "median_a"],
      [[pDate 2000 1 1, pFloat (3 / 2)], [pDate 2001 1 1, pFloat 3]]⟩ := by
  constructor
  · intro v g s hg hs hgne hsne hcont hdate hsort
    have hres : v.resolve_view = groupByDynamic v.data_frame.cols
        (filterRows v.data_frame.cols v.filter_expressions v.data_frame.rows)
        g s v.agg_expressions := by
      simp [PolarsView.resolve_view, hg, hs, hgne, hsne]
    rw [hres, groupByDynamic_ok _ _ _ _ _ hcont hdate hsort]
    refine ⟨_, rfl, rfl, ?_, ?_⟩
    · intro row
      simp only [groupKeys, bucketRow, List.mem_map, List.mem_dedup]
      constructor
      · rintro ⟨k, hk, rfl⟩
        exact ⟨k, hk, rfl⟩
      · rintro ⟨k, hk, rfl⟩
        exact ⟨k, hk, rfl⟩
    · simp [groupKeys]
  · have h32 : (3 / 2 : ℚ) = mkRat 3 2 := by
      rw [Rat.mkRat_eq_div]
      norm_num
    rw [h32]
    decide

/-- Witness for C2: the general clause applied to the Scenario C builder
state. -/
theorem resolve_bucketing_partitions_witness :
    ∃ F, viewC.resolve_view = .ok F ∧
      F.cols = "grouping" :: viewC.agg_expressions.map aggLabel ∧
      (∀ row, row ∈ F.rows ↔ ∃ k,
        k ∈ (filterRows viewC.data_frame.cols viewC.filter_expressions
          viewC.data_frame.rows).map
            (fun r => truncKey "1y" (rowValue viewC.data_frame.cols r "grouping")) ∧
        row = k :: viewC.agg_expressions.map (fun a => evalAgg viewC.data_frame.cols
          ((filterRows viewC.data_frame.cols viewC.filter_expressions
            viewC.data_frame.rows).filter
              (fun r => decide (truncKey "1y"
                (rowValue viewC.data_frame.cols r "grouping") = k))) a)) ∧
      F.rows.length = ((filterRows viewC.data_frame.cols viewC.filter_expressions
        viewC.data_frame.rows).map
          (fun r => truncKey "1y"
            (rowValue viewC.data_frame.cols r "grouping"))).dedup.length :=
  resolve_bucketing_partitions.1 viewC "grouping" "1y" (by decide) (by decide)
    (by decide) (by decide) (by decide) (by decide) (by decide)

/-- C2 counterexample: a builder state with a complete yearly rule and a
pending `median` reduction whose grouping column is sorted descending —
`resolve_view` does not partition into buckets there; it surfaces polars'
`InvalidOperationError` for the unsorted index column. -/
theorem bucketing_unsorted_counterexample :
    viewPerm2.group_by_column = some "grouping" ∧
    viewPerm2.group_by_step = some "1y" ∧
    viewPerm2.agg_expressions = [AggExpr.summary "a" .median] ∧
    "grouping" ∈ viewPerm2.data_frame.cols ∧
    viewPerm2.resolve_view =
      .error (.invalidOperation "group_by_dynamic: index column is not sorted ascending") ∧
    (∀ F : Frame, viewPerm2.resolve_view ≠ .ok F) := by
  refine ⟨by decide, by decide, by decide, by decide, by decide, ?_⟩
  intro F h
  rw [show viewPerm2.resolve_view =
    .error (.invalidOperation "group_by_dynamic: index column is not sorted ascending")
    from by decide] at h
  cases h

/-- C9 counterexample: the result of `resolve_view` is not invariant under
arbitrary permutation of the source rows.  Reversing the two distinct dates
of `framePerm1` leaves the rule and the pending `median` reduction
untouched, but the permuted grouping column is no longer sorted, so
`resolve_view` raises polars' `InvalidOperationError` instead of producing a
bucket table; and with a pending `implode` sequence expression, even a
sortedness-preserving permutation (swapping two equal-date rows) changes the
collected cell's contents, so those two `.ok` tables are not equal up to
row order either. -/
theorem perm_invariance_counterexample :
    framePerm2.rows.Perm framePerm1.rows ∧
    viewPerm2.agg_expressions = viewPerm1.agg_expressions ∧
    viewPerm2.group_by_column = viewPerm1.group_by_column ∧
    viewPerm2.group_by_step = viewPerm1.group_by_step ∧
    viewPerm1.resolve_view = .ok ⟨["grouping", "median_a"],
      [[pDate 2000 1 1, pFloat (mkRat 3 2)]]⟩ ∧
    viewPerm2.resolve_view =
      .error (.invalidOperation "group_by_dynamic: index column is not sorted ascending") ∧
    (∀ G : Frame, viewPerm2.resolve_view ≠ .ok G) ∧
    framePermEq2.rows.Perm framePermEq1.rows ∧
    viewSeqEq1.resolve_view = .ok ⟨["grouping", "a_implode"],
      [[pDate 2000 1 1, .seq [.bFloat 1, .bFloat 2]]]⟩ ∧
    viewSeqEq2.resolve_view = .ok ⟨["grouping", "a_implode"],
      [[pDate 2000 1 1, .seq [.bFloat 2, .bFloat 1]]]⟩ ∧
    ¬ ([[pDate 2000 1 1, PValue.seq [.bFloat 1, .bFloat 2]]] : List (List PValue)).Perm
        [[pDate 2000 1 1, PValue.seq [.bFloat 2, .bFloat 1]]] := by
  refine ⟨by decide, by decide, by decide, by decide, by decide, by decide, ?_,
    by decide, by decide, by decide, by decide⟩
  intro G h
  rw [show viewPerm2.resolve_view =
    .error (.invalidOperation "group_by_dynamic: index column is not sorted ascending")
    from by decide] at h
  cases h

/-- The filter stage maps row permutations to row permutations. -/
theorem filterRows_perm (cols : List String) (exprs : List FilterExpr)
    {rows rows' : List (List PValue)} (h : rows.Perm rows') :
    (filterRows cols exprs rows).Perm (filterRows cols exprs rows') := by
  rw [filterRows_eq_filter, filterRows_eq_filter]
  exact h.filter _

/-- A column's value list maps row permutations to permutations. -/
theorem columnValues_perm (cols : List String) (c : String)
    {rows rows' : List (List PValue)} (h : rows.Perm rows') :
    (columnValues cols rows c).Perm (columnValues cols rows' c) :=
  h.map _

/-- A reduction expression is invariant under permutation of the rows it
aggregates. -/
theorem evalAgg_summary_perm (cols : List String)
    {rows rows' : List (List PValue)} (h : rows.Perm rows') (c : String)
    (f : AggFunc) :
    evalAgg cols rows (.summary c f) = evalAgg cols rows' (.summary c f) := by
  simp only [evalAgg, columnValues]
  exact applyAggFunc_perm f (h.map _)

/-- When every pending expression is a reduction, a bucket's output row does
not depend on the order of the rows it is computed from. -/
theorem bucketRow_perm (cols : List String) (g s : String) (aggs : List AggExpr)
    {rows rows' : List (List PValue)} (h : rows.Perm rows')
    (hred : ∀ a ∈ aggs, ∃ c f, a = AggExpr.summary c f) (k : PValue) :
    bucketRow cols g s aggs rows k = bucketRow cols g s aggs rows' k := by
  simp only [bucketRow]
  congr 1
  apply List.map_congr_left
  intro a hain
  obtain ⟨c, f, rfl⟩ := hred a hain
  exact evalAgg_summary_perm cols (h.filter _) c f

/-- C9 amended: with a pending bucketing rule and pending *reduction*
expressions (sum/min/max/count/median), the result of `resolve_view` is
invariant up to output row order under any permutation of the source rows
under which the grouping column still passes the sorted-ascending temporal
check of `group_by_dynamic`; a permutation that breaks sortedness makes
`resolve_view` raise `InvalidOperationError` instead, and sequence
(`implode`) expressions are excluded because they preserve the row order of
each bucket inside the collected cell. -/
theorem resolve_perm_invariant_for_reductions
    (v w : PolarsView) (g s : String)
    (hcols : w.data_frame.cols = v.data_frame.cols)
    (hrows : w.data_frame.rows.Perm v.data_frame.rows)
    (hf : w.filter_expressions = v.filter_expressions)
    (hg : v.group_by_column = some g) (hg2 : w.group_by_column = some g)
    (hs : v.group_by_step = some s) (hs2 : w.group_by_step = some s)
    (ha : w.agg_expressions = v.agg_expressions)
    (hred : ∀ a ∈ v.agg_expressions, ∃ c f, a = AggExpr.summary c f)
    (hgne : g ≠ "") (hsne : s ≠ "")
    (hcont : v.data_frame.cols.contains g = true)
    (htemp : (columnValues v.data_frame.cols
      (filterRows v.data_frame.cols v.filter_expressions v.data_frame.rows)
      g).all isDateCell = true)
    (hsortv : sortedAsc (columnValues v.data_frame.cols
      (filterRows v.data_frame.cols v.filter_expressions v.data_frame.rows)
      g) = true)
    (hsortw : sortedAsc (columnValues w.data_frame.cols
      (filterRows w.data_frame.cols w.filter_expressions w.data_frame.rows)
      g) = true) :
    ∃ F G, v.resolve_view = .ok F ∧ w.resolve_view = .ok G ∧
      G.cols = F.cols ∧ G.rows.Perm F.rows := by
  have hP : (filterRows v.data_frame.cols v.filter_expressions
      w.data_frame.rows).Perm
      (filterRows v.data_frame.cols v.filter_expressions v.data_frame.rows) :=
    filterRows_perm _ _ hrows
  have htempw : (columnValues v.data_frame.cols
      (filterRows v.data_frame.cols v.filter_expressions w.data_frame.rows)
      g).all isDateCell = true := by
    rw [all_perm_congr isDateCell (columnValues_perm _ _ hP)]
    exact htemp
  rw [hcols, hf] at hsortw
  have hresv : v.resolve_view = .ok ⟨g :: v.agg_expressions.map aggLabel,
      (groupKeys v.data_frame.cols g s
        (filterRows v.data_frame.cols v.filter_expressions v.data_frame.rows)).map
        (bucketRow v.data_frame.cols g s v.agg_expressions
          (filterRows v.data_frame.cols v.filter_expressions v.data_frame.rows))⟩ := by
    have : v.resolve_view = groupByDynamic v.data_frame.cols
        (filterRows v.data_frame.cols v.filter_expressions v.data_frame.rows)
        g s v.agg_expressions := by
      simp [PolarsView.resolve_view, hg, hs, hgne, hsne]
    rw [this, groupByDynamic_ok _ _ _ _ _ hcont htemp hsortv]
  have hresw : w.resolve_view = .ok ⟨g :: v.agg_expressions.map aggLabel,
      (groupKeys v.data_frame.cols g s
        (filterRows v.data_frame.cols v.filter_expressions w.data_frame.rows)).map
        (bucketRow v.data_frame.cols g s v.agg_expressions
          (filterRows v.data_frame.cols v.filter_expressions w.data_frame.rows))⟩ := by
    have : w.resolve_view = groupByDynamic w.data_frame.cols
        (filterRows w.data_frame.cols w.filter_expressions w.data_frame.rows)
        g s w.agg_expressions := by
      simp [PolarsView.resolve_view, hg2, hs2, hgne, hsne]
    rw [this, hcols, hf, ha, groupByDynamic_ok _ _ _ _ _ hcont htempw hsortw]
  refine ⟨_, _, hresv, hresw, rfl, ?_⟩
  have hstep : ((groupKeys v.data_frame.cols g s
      (filterRows v.data_frame.cols v.filter_expressions w.data_frame.rows)).map
      (bucketRow v.data_frame.cols g s v.agg_expressions
        (filterRows v.data_frame.cols v.filter_expressions w.data_frame.rows))) =
      ((groupKeys v.data_frame.cols g s
        (filterRows v.data_frame.cols v.filter_expressions w.data_frame.rows)).map
        (bucketRow v.data_frame.cols g s v.agg_expressions
          (filterRows v.data_frame.cols v.filter_expressions v.data_frame.rows))) :=
    List.map_congr_left (fun k _ => bucketRow_perm _ _ _ _ hP hred k)
  rw [hstep]
  exact List.Perm.map _ ((hP.map _).dedup)

/-- Witness for C9: the invariance theorem applied to the equal-date two-row
frame and its row-swapped permutation (both of which keep the grouping
column sorted), with a pending `median` reduction and a yearly bucket. -/
theorem resolve_perm_invariant_for_reductions_witness :
    ∃ F G, viewRedEq1.resolve_view = .ok F ∧ viewRedEq2.resolve_view = .ok G ∧
      G.cols = F.cols ∧ G.rows.Perm F.rows :=
  resolve_perm_invariant_for_reductions viewRedEq1 viewRedEq2
    "grouping" "1y" (by decide) (by decide) (by decide) (by decide) (by decide)
    (by decide) (by decide) (by decide)
    (by
      intro a ha
      refine ⟨"a", .median, ?_⟩
      have ha2 : a ∈ [AggExpr.summary "a" AggFunc.median] := ha
      simpa using ha2)
    (by decide) (by decide) (by decide) (by decide) (by decide) (by decide)
